import Mathlib

/-!
Verification development for the MQTT connection controller of
`src/plugin/mqttclient.cpp` (class `MQTTClient`).

The controller is embedded shallowly: the member variables of `MQTTClient`
(together with the configuration mirrored into the wrapped `QMqttClient`
and the status of the two single-shot `QTimer`s and of the `QTcpSocket`)
become the record `MState`; every method becomes a function
`MState → MState × List Ev`, where the event list records, in program
order, the Qt signals the method emits and the subscribe/unsubscribe
requests it issues.  Qt signal/slot connections on the same thread are
direct calls, so `m_client->disconnectFromHost()` re-entrantly invokes the
`onDisconnected` slot whenever the wrapped client was not already
disconnected; `clientDisconnect` models exactly that.  Asynchronous
occurrences (TCP connect completion, broker CONNACK / disconnect / error
delivery, timer expiry) are the event type `Evt`; `step` dispatches one
occurrence, with the guard under which the occurrence is physically
possible (a timer can only fire while running, the socket can only report
connected while connecting, ...); an occurrence whose guard fails leaves
the state unchanged.
-/

namespace MQTTClient

/-- State of the wrapped `QMqttClient` (`QMqttClient::ClientState`). -/
inductive ClState where
  | Disconnected
  | Connecting
  | Connected
deriving DecidableEq

/-- Lifecycle of the `QTcpSocket` owned by the controller: absent (initial),
connecting, connected, or aborted (after `abort()`; a stale aborted socket
delivers no further events because `connectToHost` also calls
`m_socket->disconnect()` before discarding it). -/
inductive SockSt where
  | noSock
  | connecting
  | connectedS
  | aborted
deriving DecidableEq

/-- `QMqttClient::ClientError` values distinguished by `onErrorChanged`;
`OtherError` stands for every code outside the translation map. -/
inductive ClientError where
  | NoError
  | InvalidProtocolVersion
  | IdRejected
  | ServerUnavailable
  | BadUsernameOrPassword
  | NotAuthorized
  | TransportInvalid
  | ProtocolViolation
  | OtherError
deriving DecidableEq

/-- Observable actions of the controller: the Qt signals it emits plus the
subscribe/unsubscribe requests it issues to the protocol client, and the
starting of the single-shot reconnect timer (`m_reconnectTimer->start()`). -/
inductive Ev where
  | hostChanged
  | portChanged
  | usernameChanged
  | passwordChanged
  | topicChanged
  | reconnectIntervalChanged
  | connectedChanged
  | reconnecting
  | connectionError (msg : String)
  | messageReceived (topic payload : String)
  | subscribe (topic : String) (qos : Nat)
  | unsubscribe
  | startReconnect
deriving DecidableEq

/-- The member variables of `MQTTClient` together with the mirrored
configuration of the wrapped `QMqttClient` (`clHost`, `clPort`, `clUser`,
`clPass`), the running status of the two single-shot timers, and the
socket lifecycle.  `sub = some t` models `m_subscription` pointing at a
live subscription on topic `t`; `none` models the null pointer. -/
structure MState where
  host : String
  port : Int
  username : String
  password : String
  topic : String
  reconnectInterval : Int
  shouldBeConnected : Bool
  clientState : ClState
  sub : Option String
  connackRunning : Bool
  reconnectRunning : Bool
  sock : SockSt
  clHost : String
  clPort : Int
  clUser : String
  clPass : String
deriving DecidableEq

/-- The state established by the `MQTTClient` constructor: default port
1883, reconnect interval 30000 ms, intent cleared, both timers stopped,
no socket, no subscription. -/
def initState : MState :=
  { host := ""
    port := 1883
    username := ""
    password := ""
    topic := ""
    reconnectInterval := 30000
    shouldBeConnected := false
    clientState := ClState.Disconnected
    sub := none
    connackRunning := false
    reconnectRunning := false
    sock := SockSt.noSock
    clHost := ""
    clPort := 1883
    clUser := ""
    clPass := "" }

/-- `QString::trimmed`: the input with whitespace removed from the start
and the end (executable model over the character list). -/
def trimmed (s : String) : String :=
  ⟨((s.data.dropWhile Char.isWhitespace).reverse.dropWhile Char.isWhitespace).reverse⟩

/-- The error-to-text map of `MQTTClient::onErrorChanged`, with the
`QMap::value` default `"Unknown error"`. -/
def errorMessage : ClientError → String
  | ClientError.InvalidProtocolVersion => "Invalid protocol version"
  | ClientError.IdRejected => "Client ID rejected"
  | ClientError.ServerUnavailable => "Server unavailable"
  | ClientError.BadUsernameOrPassword => "Bad username or password"
  | ClientError.NotAuthorized => "Not authorized"
  | ClientError.TransportInvalid => "Transport invalid"
  | ClientError.ProtocolViolation => "Protocol violation"
  | _ => "Unknown error"

/-- `MQTTClient::connected`: true iff the wrapped client reports
`QMqttClient::Connected`. -/
def connected (s : MState) : Bool :=
  s.clientState = ClState.Connected

/-- `MQTTClient::setHost`: trim, compare, store, mirror into the wrapped
client, notify. -/
def setHost (s : MState) (host : String) : MState × List Ev :=
  let v := trimmed host
  if s.host ≠ v then
    ({ s with host := v, clHost := v }, [Ev.hostChanged])
  else (s, [])

/-- `MQTTClient::setPort`: compare, store, mirror (cast to `quint16`),
notify. -/
def setPort (s : MState) (p : Int) : MState × List Ev :=
  if s.port ≠ p then
    ({ s with port := p, clPort := p % 65536 }, [Ev.portChanged])
  else (s, [])

/-- `MQTTClient::setUsername`: trim, compare, store, mirror, notify. -/
def setUsername (s : MState) (username : String) : MState × List Ev :=
  let v := trimmed username
  if s.username ≠ v then
    ({ s with username := v, clUser := v }, [Ev.usernameChanged])
  else (s, [])

/-- `MQTTClient::setPassword`: compare, store verbatim (no trimming),
mirror, notify. -/
def setPassword (s : MState) (password : String) : MState × List Ev :=
  if s.password ≠ password then
    ({ s with password := password, clPass := password }, [Ev.passwordChanged])
  else (s, [])

/-- `MQTTClient::updateSubscription`: no-op unless connected with a
non-empty topic; otherwise unsubscribe any live subscription, then
subscribe to the current topic at QoS 0 (`m_client->subscribe(m_topic, 0)`,
which succeeds while the client is connected). -/
def updateSubscription (s : MState) : MState × List Ev :=
  if connected s = true ∧ s.topic ≠ "" then
    match s.sub with
    | some _ => ({ s with sub := some s.topic }, [Ev.unsubscribe, Ev.subscribe s.topic 0])
    | none => ({ s with sub := some s.topic }, [Ev.subscribe s.topic 0])
  else (s, [])

/-- `MQTTClient::setTopic`: trim, compare, store, notify, then
`updateSubscription()`. -/
def setTopic (s : MState) (topic : String) : MState × List Ev :=
  let v := trimmed topic
  if s.topic ≠ v then
    let r := updateSubscription { s with topic := v }
    (r.1, Ev.topicChanged :: r.2)
  else (s, [])

/-- `MQTTClient::setReconnectInterval`: compare, store, retarget the
reconnect timer, notify. -/
def setReconnectInterval (s : MState) (interval : Int) : MState × List Ev :=
  if s.reconnectInterval ≠ interval then
    ({ s with reconnectInterval := interval }, [Ev.reconnectIntervalChanged])
  else (s, [])

/-- `MQTTClient::onDisconnected` slot: stop the CONNACK timer, drop the
subscription pointer, notify `connectedChanged`, and start the reconnect
timer iff `m_shouldBeConnected` is still set. -/
def onDisconnected (s : MState) : MState × List Ev :=
  let s1 := { s with connackRunning := false, sub := none }
  if s1.shouldBeConnected then
    ({ s1 with reconnectRunning := true }, [Ev.connectedChanged, Ev.startReconnect])
  else (s1, [Ev.connectedChanged])

/-- `m_client->disconnectFromHost()`: a no-op when the wrapped client is
already disconnected; otherwise it transitions to `Disconnected` and its
`disconnected` signal re-entrantly (direct connection, same thread) runs
the `onDisconnected` slot. -/
def clientDisconnect (s : MState) : MState × List Ev :=
  if s.clientState = ClState.Disconnected then (s, [])
  else onDisconnected { s with clientState := ClState.Disconnected }

/-- `MQTTClient::disconnectFromHost`: clear intent, stop both timers,
unsubscribe and drop any live subscription, disconnect the wrapped
client, abort the socket if one exists. -/
def disconnectFromHost (s : MState) : MState × List Ev :=
  let s1 := { s with shouldBeConnected := false, reconnectRunning := false,
                     connackRunning := false }
  let p : MState × List Ev :=
    match s1.sub with
    | some _ => ({ s1 with sub := none }, [Ev.unsubscribe])
    | none => (s1, [])
  let q := clientDisconnect p.1
  let s2 := if q.1.sock = SockSt.noSock then q.1 else { q.1 with sock := SockSt.aborted }
  (s2, p.2 ++ q.2)

/-- `MQTTClient::connectToHost`: reject an empty host with a synchronous
`connectionError` before touching any state; otherwise set intent, stop
the reconnect timer, discard any previous socket (after disconnecting its
signals) and start a fresh TCP connection attempt. -/
def connectToHost (s : MState) : MState × List Ev :=
  if s.host = "" then (s, [Ev.connectionError "Host is empty"])
  else
    ({ s with shouldBeConnected := true, reconnectRunning := false,
              sock := SockSt.connecting }, [])

/-- The `QTcpSocket::connected` lambda of `connectToHost`: mirror the
endpoint configuration into the wrapped client, attach the socket as
transport, start the CONNACK timer, and call `m_client->connectToHost()`
(which enters `Connecting` only from `Disconnected`). -/
def onTcpConnected (s : MState) : MState × List Ev :=
  let s1 := { s with clHost := s.host, clPort := s.port % 65536,
                     clUser := s.username, clPass := s.password,
                     sock := SockSt.connectedS, connackRunning := true }
  if s1.clientState = ClState.Disconnected then
    ({ s1 with clientState := ClState.Connecting }, [])
  else (s1, [])

/-- `MQTTClient::onConnected` slot: stop the CONNACK timer, notify
`connectedChanged`, refresh the subscription. -/
def onConnected (s : MState) : MState × List Ev :=
  let r := updateSubscription { s with connackRunning := false }
  (r.1, Ev.connectedChanged :: r.2)

/-- `MQTTClient::onErrorChanged` slot: ignore `NoError`; otherwise report
the translated message, and start the reconnect timer iff intent is set
and the error is not a credential error. -/
def onErrorChanged (s : MState) (e : ClientError) : MState × List Ev :=
  if e = ClientError.NoError then (s, [])
  else
    if s.shouldBeConnected = true ∧ e ≠ ClientError.BadUsernameOrPassword ∧
        e ≠ ClientError.NotAuthorized then
      ({ s with reconnectRunning := true },
       [Ev.connectionError (errorMessage e), Ev.startReconnect])
    else (s, [Ev.connectionError (errorMessage e)])

/-- `MQTTClient::attemptReconnect` slot (reconnect-timer timeout): bail
out when intent was cleared or the client is already connected; otherwise
announce `reconnecting` and call `connectToHost()`. -/
def attemptReconnect (s : MState) : MState × List Ev :=
  if s.shouldBeConnected = false then (s, [])
  else if connected s = true then (s, [])
  else
    let r := connectToHost s
    (r.1, Ev.reconnecting :: r.2)

/-- The CONNACK-timer timeout lambda of the constructor: report
`"CONNACK timeout"`, save `m_shouldBeConnected`, run the full
`disconnectFromHost()` cleanup (which clears the flag), and when the flag
was set restore it and start the reconnect timer. -/
def onConnackTimeout (s : MState) : MState × List Ev :=
  let was := s.shouldBeConnected
  let r := disconnectFromHost s
  if was then
    ({ r.1 with shouldBeConnected := true, reconnectRunning := true },
     Ev.connectionError "CONNACK timeout" :: r.2 ++ [Ev.startReconnect])
  else
    (r.1, Ev.connectionError "CONNACK timeout" :: r.2)

/-- `MQTTClient::onMessageReceived` slot: forward topic and payload. -/
def onMessageReceived (s : MState) (topic payload : String) : MState × List Ev :=
  (s, [Ev.messageReceived topic payload])

/-- One occurrence delivered to the controller: a caller invocation of a
public slot, or an asynchronous event from the socket, the wrapped
client, or one of the two timers. -/
inductive Evt where
  | setHost (v : String)
  | setPort (p : Int)
  | setUsername (v : String)
  | setPassword (v : String)
  | setTopic (v : String)
  | setReconnectInterval (i : Int)
  | connectCall
  | disconnectCall
  | tcpConnected
  | tcpError (msg : String)
  | mqttConnected
  | mqttDisconnected
  | mqttError (e : ClientError)
  | mqttMessage (topic payload : String)
  | connackFire
  | reconnectFire
deriving DecidableEq

/-- Dispatch one occurrence.  Guards: the socket reports `connected` (or
an error) only while it exists in the corresponding phase; the wrapped
client reports `connected` only from `Connecting` and `disconnected` only
when not already `Disconnected`; subscription messages arrive only while
a subscription is live; a single-shot timer fires only while running, and
firing clears its running flag before the handler executes. -/
def step (s : MState) : Evt → MState × List Ev
  | Evt.setHost v => setHost s v
  | Evt.setPort p => setPort s p
  | Evt.setUsername v => setUsername s v
  | Evt.setPassword v => setPassword s v
  | Evt.setTopic v => setTopic s v
  | Evt.setReconnectInterval i => setReconnectInterval s i
  | Evt.connectCall => connectToHost s
  | Evt.disconnectCall => disconnectFromHost s
  | Evt.tcpConnected =>
      if s.sock = SockSt.connecting then onTcpConnected s else (s, [])
  | Evt.tcpError m =>
      if s.sock = SockSt.connecting ∨ s.sock = SockSt.connectedS then
        (s, [Ev.connectionError ("TCP: " ++ m)])
      else (s, [])
  | Evt.mqttConnected =>
      if s.clientState = ClState.Connecting then
        onConnected { s with clientState := ClState.Connected }
      else (s, [])
  | Evt.mqttDisconnected =>
      if s.clientState = ClState.Disconnected then (s, [])
      else onDisconnected { s with clientState := ClState.Disconnected }
  | Evt.mqttError e => onErrorChanged s e
  | Evt.mqttMessage t p =>
      if s.sub.isSome then onMessageReceived s t p else (s, [])
  | Evt.connackFire =>
      if s.connackRunning then onConnackTimeout { s with connackRunning := false }
      else (s, [])
  | Evt.reconnectFire =>
      if s.reconnectRunning then attemptReconnect { s with reconnectRunning := false }
      else (s, [])

/-- Run a list of occurrences, concatenating the observable actions. -/
def run (s : MState) : List Evt → MState × List Ev
  | [] => (s, [])
  | e :: es =>
      let r := step s e
      let r2 := run r.1 es
      (r2.1, r.2 ++ r2.2)

/-- States reachable from the constructor state by any sequence of
occurrences. -/
inductive Reachable : MState → Prop where
  | init : Reachable initState
  | next (s : MState) (e : Evt) : Reachable s → Reachable (step s e).1

/-- Concrete test state: a connect attempt whose TCP leg succeeded and
whose MQTT CONNECT is awaiting the CONNACK (the CONNACK guard is
running). -/
def sampleAwait : MState :=
  { initState with
    host := "h"
    topic := "t"
    shouldBeConnected := true
    clientState := ClState.Connecting
    sock := SockSt.connectedS
    connackRunning := true }

/-- Concrete test state: connected to the broker with a live subscription
on topic `"a"`. -/
def sampleConnected : MState :=
  { initState with
    host := "h"
    topic := "a"
    shouldBeConnected := true
    clientState := ClState.Connected
    sub := some "a"
    sock := SockSt.connectedS }

/-- Concrete test state: disconnected and intent cleared, but with the
reconnect timer (spuriously) still armed. -/
def sampleIdleArmed : MState :=
  { initState with
    host := "h"
    reconnectRunning := true }

end MQTTClient

/-!
Helper lemmas and the claim theorems.
-/

namespace MQTTClient

/-- Unfolding of `run` on a cons cell. -/
lemma run_cons (s : MState) (e : Evt) (es : List Evt) :
    run s (e :: es) = ((run (step s e).1 es).1, (step s e).2 ++ (run (step s e).1 es).2) := rfl

/-- `updateSubscription` touches only the subscription pointer: every
other component of the state is preserved. -/
lemma updateSubscription_fields (s : MState) :
    (updateSubscription s).1.host = s.host
  ∧ (updateSubscription s).1.topic = s.topic
  ∧ (updateSubscription s).1.clientState = s.clientState
  ∧ (updateSubscription s).1.sock = s.sock
  ∧ (updateSubscription s).1.connackRunning = s.connackRunning
  ∧ (updateSubscription s).1.reconnectRunning = s.reconnectRunning
  ∧ (updateSubscription s).1.shouldBeConnected = s.shouldBeConnected
  ∧ (updateSubscription s).1.reconnectInterval = s.reconnectInterval := by
  unfold updateSubscription
  split
  · cases s.sub <;> simp
  · simp

/-- The only action lists `updateSubscription` can produce. -/
lemma updateSubscription_out (s : MState) :
    (updateSubscription s).2 = []
  ∨ (updateSubscription s).2 = [Ev.subscribe s.topic 0]
  ∨ (updateSubscription s).2 = [Ev.unsubscribe, Ev.subscribe s.topic 0] := by
  unfold updateSubscription
  split
  · cases s.sub <;> simp
  · simp

/-- Any subscribe issued inside `updateSubscription` uses QoS 0. -/
lemma updateSubscription_qos (s : MState) (t : String) (q : Nat)
    (h : Ev.subscribe t q ∈ (updateSubscription s).2) : q = 0 := by
  rcases updateSubscription_out s with ho | ho | ho <;> simp [ho] at h <;> exact h.2

/-- The only action lists `disconnectFromHost` can produce (the nested
`onDisconnected` always sees the intent flag already cleared, so it never
starts the reconnect timer). -/
lemma disconnectFromHost_out (s : MState) :
    (disconnectFromHost s).2 = [] ∨ (disconnectFromHost s).2 = [Ev.connectedChanged]
  ∨ (disconnectFromHost s).2 = [Ev.unsubscribe]
  ∨ (disconnectFromHost s).2 = [Ev.unsubscribe, Ev.connectedChanged] := by
  simp only [disconnectFromHost, clientDisconnect, onDisconnected]
  cases s.sub <;> simp <;> split <;> simp

/-- The state left behind by `disconnectFromHost`: intent cleared, both
timers stopped, no subscription, wrapped client disconnected, socket not
connecting, configuration untouched. -/
lemma disconnectFromHost_state (s : MState) :
    (disconnectFromHost s).1.shouldBeConnected = false
  ∧ (disconnectFromHost s).1.reconnectRunning = false
  ∧ (disconnectFromHost s).1.connackRunning = false
  ∧ (disconnectFromHost s).1.sub = none
  ∧ (disconnectFromHost s).1.clientState = ClState.Disconnected
  ∧ (disconnectFromHost s).1.sock ≠ SockSt.connecting
  ∧ (disconnectFromHost s).1.reconnectInterval = s.reconnectInterval
  ∧ (disconnectFromHost s).1.host = s.host := by
  simp only [disconnectFromHost, clientDisconnect, onDisconnected]
  cases s.sub <;> cases s.clientState <;> cases hs : s.sock <;> simp [hs]

/-- After an explicit disconnect, any occurrence other than a `connect()`
call keeps the controller quiescent: intent stays cleared, both timers
stay stopped, the socket never re-enters the connecting phase, and no
reconnect activity is emitted. -/
lemma quiet_step (s : MState) (e : Evt)
    (h1 : s.shouldBeConnected = false) (h2 : s.reconnectRunning = false)
    (h3 : s.connackRunning = false) (h4 : s.sock ≠ SockSt.connecting)
    (he : e ≠ Evt.connectCall) :
    ((step s e).1.shouldBeConnected = false ∧ (step s e).1.reconnectRunning = false
      ∧ (step s e).1.connackRunning = false ∧ (step s e).1.sock ≠ SockSt.connecting)
  ∧ Ev.reconnecting ∉ (step s e).2 ∧ Ev.startReconnect ∉ (step s e).2 := by
  cases e
  case setHost v => simp only [step, setHost]; split <;> simp_all
  case setPort p => simp only [step, setPort]; split <;> simp_all
  case setUsername v => simp only [step, setUsername]; split <;> simp_all
  case setPassword v => simp only [step, setPassword]; split <;> simp_all
  case setTopic v =>
    simp only [step, setTopic]
    split
    · have hf := updateSubscription_fields { s with topic := trimmed v }
      rcases updateSubscription_out { s with topic := trimmed v } with ho | ho | ho <;>
        simp_all
    · simp_all
  case setReconnectInterval i => simp only [step, setReconnectInterval]; split <;> simp_all
  case connectCall => exact absurd rfl he
  case disconnectCall =>
    have hst := disconnectFromHost_state s
    rcases disconnectFromHost_out s with ho | ho | ho | ho <;> simp_all [step]
  case tcpConnected =>
    simp only [step]
    split
    · exact absurd (by assumption) h4
    · simp_all
  case tcpError m => simp only [step]; split <;> simp_all
  case mqttConnected =>
    simp only [step, onConnected]
    split
    · have hf := updateSubscription_fields
        { s with clientState := ClState.Connected, connackRunning := false }
      rcases updateSubscription_out
        { s with clientState := ClState.Connected, connackRunning := false } with ho | ho | ho <;>
        simp_all
    · simp_all
  case mqttDisconnected =>
    simp only [step, onDisconnected]
    split
    · simp_all
    · split
      · simp_all
      · simp_all
  case mqttError e =>
    simp only [step, onErrorChanged]
    split
    · simp_all
    · split
      · simp_all
      · simp_all
  case mqttMessage tp pl => simp only [step, onMessageReceived]; split <;> simp_all
  case connackFire => simp [step, h3]; exact ⟨h1, h2, h4⟩
  case reconnectFire => simp [step, h2]; exact ⟨h1, h3, h4⟩

/-- `quiet_step` lifted to whole runs. -/
lemma quiet_run (s : MState) (es : List Evt)
    (h1 : s.shouldBeConnected = false) (h2 : s.reconnectRunning = false)
    (h3 : s.connackRunning = false) (h4 : s.sock ≠ SockSt.connecting)
    (he : ∀ x ∈ es, x ≠ Evt.connectCall) :
    ((run s es).1.shouldBeConnected = false ∧ (run s es).1.reconnectRunning = false
      ∧ (run s es).1.connackRunning = false ∧ (run s es).1.sock ≠ SockSt.connecting)
  ∧ Ev.reconnecting ∉ (run s es).2 ∧ Ev.startReconnect ∉ (run s es).2 := by
  induction es generalizing s with
  | nil => exact ⟨⟨h1, h2, h3, h4⟩, by simp [run], by simp [run]⟩
  | cons e es ih =>
    have hstep := quiet_step s e h1 h2 h3 h4 (he e (by simp))
    have htail := ih (step s e).1 hstep.1.1 hstep.1.2.1 hstep.1.2.2.1 hstep.1.2.2.2
      (fun x hx => he x (by simp [hx]))
    rw [run_cons]
    refine ⟨htail.1, ?_, ?_⟩ <;> rw [List.mem_append] <;> rintro (hmem | hmem)
    · exact hstep.2.1 hmem
    · exact htail.2.1 hmem
    · exact hstep.2.2 hmem
    · exact htail.2.2 hmem

/-- While disconnected with no subscription and no connecting socket, any
occurrence other than a connect call or a reconnect-timer expiry keeps
the subscription inactive. -/
lemma waiting_step (s : MState) (e : Evt)
    (h1 : s.sub = none) (h2 : s.clientState = ClState.Disconnected)
    (h3 : s.sock ≠ SockSt.connecting)
    (he1 : e ≠ Evt.connectCall) (he2 : e ≠ Evt.reconnectFire) :
    (step s e).1.sub = none ∧ (step s e).1.clientState = ClState.Disconnected
  ∧ (step s e).1.sock ≠ SockSt.connecting := by
  cases e
  case setHost v => simp only [step, setHost]; split <;> simp_all
  case setPort p => simp only [step, setPort]; split <;> simp_all
  case setUsername v => simp only [step, setUsername]; split <;> simp_all
  case setPassword v => simp only [step, setPassword]; split <;> simp_all
  case setTopic v =>
    simp only [step, setTopic]
    split
    · simp [updateSubscription, connected, h2, h1, h3]
    · exact ⟨h1, h2, h3⟩
  case setReconnectInterval i => simp only [step, setReconnectInterval]; split <;> simp_all
  case connectCall => exact absurd rfl he1
  case disconnectCall =>
    have hst := disconnectFromHost_state s
    exact ⟨hst.2.2.2.1, hst.2.2.2.2.1, hst.2.2.2.2.2.1⟩
  case tcpConnected =>
    simp only [step]
    split
    · exact absurd (by assumption) h3
    · exact ⟨h1, h2, h3⟩
  case tcpError m => simp only [step]; split <;> exact ⟨h1, h2, h3⟩
  case mqttConnected =>
    simp only [step]
    split
    · rename_i hg
      rw [h2] at hg
      exact absurd hg (by decide)
    · exact ⟨h1, h2, h3⟩
  case mqttDisconnected => simp [step, h2]; exact ⟨h1, h3⟩
  case mqttError e =>
    simp only [step, onErrorChanged]
    split
    · exact ⟨h1, h2, h3⟩
    · split <;> exact ⟨h1, h2, h3⟩
  case mqttMessage tp pl => simp [step, h1]; exact ⟨h2, h3⟩
  case connackFire =>
    simp only [step]
    split
    · simp only [onConnackTimeout]
      have hst := disconnectFromHost_state { s with connackRunning := false }
      split
      · exact ⟨hst.2.2.2.1, hst.2.2.2.2.1, hst.2.2.2.2.2.1⟩
      · exact ⟨hst.2.2.2.1, hst.2.2.2.2.1, hst.2.2.2.2.2.1⟩
    · exact ⟨h1, h2, h3⟩
  case reconnectFire => exact absurd rfl he2

/-- `waiting_step` lifted to whole runs. -/
lemma waiting_run (s : MState) (es : List Evt)
    (h1 : s.sub = none) (h2 : s.clientState = ClState.Disconnected)
    (h3 : s.sock ≠ SockSt.connecting)
    (he : ∀ x ∈ es, x ≠ Evt.connectCall ∧ x ≠ Evt.reconnectFire) :
    (run s es).1.sub = none := by
  induction es generalizing s with
  | nil => exact h1
  | cons e es ih =>
    have hstep := waiting_step s e h1 h2 h3 (he e (by simp)).1 (he e (by simp)).2
    exact ih (step s e).1 hstep.1 hstep.2.1 hstep.2.2 (fun x hx => he x (by simp [hx]))

/-- Auxiliary invariant for reachable states: whenever the intent flag is
cleared, the wrapped client is disconnected and the socket is not in the
connecting phase (every path that clears intent also tears both down). -/
lemma invAux_step (s : MState) (e : Evt)
    (h : s.shouldBeConnected = false →
      s.clientState = ClState.Disconnected ∧ s.sock ≠ SockSt.connecting) :
    (step s e).1.shouldBeConnected = false →
      (step s e).1.clientState = ClState.Disconnected ∧ (step s e).1.sock ≠ SockSt.connecting := by
  cases e
  case setHost v => simp only [step, setHost]; split <;> exact h
  case setPort p => simp only [step, setPort]; split <;> exact h
  case setUsername v => simp only [step, setUsername]; split <;> exact h
  case setPassword v => simp only [step, setPassword]; split <;> exact h
  case setTopic v =>
    simp only [step, setTopic]
    split
    · have hf := updateSubscription_fields { s with topic := trimmed v }
      intro hq
      rw [hf.2.2.2.2.2.2.1] at hq
      rw [hf.2.2.1, hf.2.2.2.1]
      exact h hq
    · exact h
  case setReconnectInterval i => simp only [step, setReconnectInterval]; split <;> exact h
  case connectCall =>
    simp only [step, connectToHost]
    split
    · exact h
    · intro hq; exact absurd hq (by simp)
  case disconnectCall =>
    intro hq
    have hst := disconnectFromHost_state s
    exact ⟨hst.2.2.2.2.1, hst.2.2.2.2.2.1⟩
  case tcpConnected =>
    simp only [step]
    split
    · rename_i hg
      simp only [onTcpConnected]
      split <;> (intro hq; exact absurd hg (h hq).2)
    · exact h
  case tcpError m => simp only [step]; split <;> exact h
  case mqttConnected =>
    simp only [step]
    split
    · rename_i hg
      simp only [onConnected]
      have hf := updateSubscription_fields
        { s with clientState := ClState.Connected, connackRunning := false }
      intro hq
      rw [hf.2.2.2.2.2.2.1] at hq
      have hd := (h hq).1
      rw [hg] at hd
      exact absurd hd (by decide)
    · exact h
  case mqttDisconnected =>
    simp only [step]
    split
    · exact h
    · simp only [onDisconnected]
      split
      · intro hq
        rename_i hc
        rw [hq] at hc
        exact absurd hc (by decide)
      · intro hq
        exact ⟨rfl, (h hq).2⟩
  case mqttError e =>
    simp only [step, onErrorChanged]
    split
    · exact h
    · split <;> exact h
  case mqttMessage tp pl => simp only [step, onMessageReceived]; split <;> exact h
  case connackFire =>
    simp only [step]
    split
    · simp only [onConnackTimeout]
      have hst := disconnectFromHost_state { s with connackRunning := false }
      split
      · intro hq; exact absurd hq (by simp)
      · intro hq
        exact ⟨hst.2.2.2.2.1, hst.2.2.2.2.2.1⟩
    · exact h
  case reconnectFire =>
    simp only [step]
    split
    · simp only [attemptReconnect]
      split
      · exact h
      · split
        · exact h
        · simp only [connectToHost]
          split
          · exact h
          · intro hq; exact absurd hq (by simp)
    · exact h

/-- The auxiliary invariant holds in every reachable state. -/
lemma reachable_invAux (s : MState) (h : Reachable s) :
    s.shouldBeConnected = false →
      s.clientState = ClState.Disconnected ∧ s.sock ≠ SockSt.connecting := by
  induction h with
  | init => exact fun _ => ⟨rfl, by decide⟩
  | next s e hr ih => exact invAux_step s e ih

/-- Running any event list preserves reachability. -/
lemma reachable_run (s : MState) (h : Reachable s) (es : List Evt) :
    Reachable (run s es).1 := by
  induction es generalizing s with
  | nil => exact h
  | cons e es ih => exact ih (step s e).1 (Reachable.next s e h)

end MQTTClient

/-!
Claim theorems.
-/

namespace MQTTClient

/-- C1: the claim states that an authentication/authorization error never
causes a reconnect attempt to be scheduled, neither by the error handler
nor by any disconnect event that follows the auth failure.  The code
violates the second half: `onErrorChanged` itself does not start the
reconnect timer on `BadUsernameOrPassword`/`NotAuthorized`, but it also
leaves `m_shouldBeConnected` set, so the broker disconnect that follows
the rejected CONNACK reaches `onDisconnected` with intent still true and
starts the reconnect timer.  This theorem evaluates the code on that
failing run: after the auth error alone the timer is off, and after the
following disconnect event (with no intervening call) the timer is
running and a reconnect has been scheduled. -/
theorem authFailure_then_disconnect_starts_reconnect :
    (run initState [Evt.setHost "h", Evt.connectCall, Evt.tcpConnected,
        Evt.mqttError ClientError.BadUsernameOrPassword]).1.reconnectRunning = false
  ∧ (run initState [Evt.setHost "h", Evt.connectCall, Evt.tcpConnected,
        Evt.mqttError ClientError.BadUsernameOrPassword]).1.shouldBeConnected = true
  ∧ Ev.connectionError "Bad username or password" ∈
      (run initState [Evt.setHost "h", Evt.connectCall, Evt.tcpConnected,
        Evt.mqttError ClientError.BadUsernameOrPassword]).2
  ∧ (run initState [Evt.setHost "h", Evt.connectCall, Evt.tcpConnected,
        Evt.mqttError ClientError.BadUsernameOrPassword, Evt.mqttDisconnected]).1.reconnectRunning
      = true
  ∧ Ev.startReconnect ∈
      (run initState [Evt.setHost "h", Evt.connectCall, Evt.tcpConnected,
        Evt.mqttError ClientError.BadUsernameOrPassword, Evt.mqttDisconnected]).2 := by
  decide

/-- C2: when the CONNACK guard (the handshake-timeout guard) fires while
awaiting the handshake with intent set, the controller reports the
handshake-timeout error (`"CONNACK timeout"`), performs the full
disconnect cleanup (CONNACK timer stopped, wrapped client disconnected,
subscription inactive), restores intent to true despite the cleanup
clearing it, schedules exactly one reconnect (exactly one
`startReconnect`, with the configured interval unchanged), and the
subscription stays inactive for the whole waiting period (any following
events short of a connect call or the reconnect firing). -/
theorem connackTimeout_schedules_single_reconnect (s : MState)
    (h1 : s.connackRunning = true) (h2 : s.shouldBeConnected = true)
    (h3 : s.clientState = ClState.Connecting) :
    Ev.connectionError "CONNACK timeout" ∈ (step s Evt.connackFire).2
  ∧ (step s Evt.connackFire).2.count Ev.startReconnect = 1
  ∧ (step s Evt.connackFire).1.shouldBeConnected = true
  ∧ (step s Evt.connackFire).1.reconnectRunning = true
  ∧ (step s Evt.connackFire).1.connackRunning = false
  ∧ (step s Evt.connackFire).1.sub = none
  ∧ (step s Evt.connackFire).1.clientState = ClState.Disconnected
  ∧ (step s Evt.connackFire).1.reconnectInterval = s.reconnectInterval
  ∧ (∀ es : List Evt, (∀ x ∈ es, x ≠ Evt.connectCall ∧ x ≠ Evt.reconnectFire) →
      (run (step s Evt.connackFire).1 es).1.sub = none) := by
  have hstep : step s Evt.connackFire = onConnackTimeout { s with connackRunning := false } := by
    simp [step, h1]
  have hoc : onConnackTimeout { s with connackRunning := false } =
      ({ (disconnectFromHost { s with connackRunning := false }).1 with
          shouldBeConnected := true, reconnectRunning := true },
        Ev.connectionError "CONNACK timeout" ::
          (disconnectFromHost { s with connackRunning := false }).2 ++ [Ev.startReconnect]) := by
    simp only [onConnackTimeout]
    simp [h2]
  have hst := disconnectFromHost_state { s with connackRunning := false }
  rw [hstep, hoc]
  refine ⟨by simp, ?_, rfl, rfl, hst.2.2.1, hst.2.2.2.1, hst.2.2.2.2.1, hst.2.2.2.2.2.2.1, ?_⟩
  · rcases disconnectFromHost_out { s with connackRunning := false } with ho | ho | ho | ho <;>
      rw [ho] <;> rfl
  · intro es hes
    exact waiting_run _ es hst.2.2.2.1 hst.2.2.2.2.1 hst.2.2.2.2.2.1
      (fun x hx => (hes x hx))

/-- Witness for C2 at the concrete awaiting-handshake state. -/
theorem connackTimeout_schedules_single_reconnect_witness :
    (sampleAwait.connackRunning = true ∧ sampleAwait.shouldBeConnected = true
      ∧ sampleAwait.clientState = ClState.Connecting)
  ∧ ((step sampleAwait Evt.connackFire).2.count Ev.startReconnect = 1
      ∧ (step sampleAwait Evt.connackFire).1.shouldBeConnected = true
      ∧ (step sampleAwait Evt.connackFire).1.sub = none) :=
  ⟨⟨rfl, rfl, rfl⟩,
   (connackTimeout_schedules_single_reconnect sampleAwait rfl rfl rfl).2.1,
   (connackTimeout_schedules_single_reconnect sampleAwait rfl rfl rfl).2.2.1,
   (connackTimeout_schedules_single_reconnect sampleAwait rfl rfl rfl).2.2.2.2.2.1⟩

/-- C3: an explicit `disconnectFromHost()` synchronously clears intent and
stops both timers, and afterwards, through any sequence of occurrences
that contains no `connectToHost()` call, no reconnect attempt ever fires:
no `reconnecting` event, no reconnect-timer start, and the timer stays
stopped. -/
theorem disconnect_cancels_and_no_reconnect (s : MState) (es : List Evt)
    (h : ∀ x ∈ es, x ≠ Evt.connectCall) :
    (disconnectFromHost s).1.shouldBeConnected = false
  ∧ (disconnectFromHost s).1.reconnectRunning = false
  ∧ (disconnectFromHost s).1.connackRunning = false
  ∧ Ev.reconnecting ∉ (run (disconnectFromHost s).1 es).2
  ∧ Ev.startReconnect ∉ (run (disconnectFromHost s).1 es).2
  ∧ (run (disconnectFromHost s).1 es).1.reconnectRunning = false := by
  have hst := disconnectFromHost_state s
  have hq := quiet_run (disconnectFromHost s).1 es hst.1 hst.2.1 hst.2.2.1 hst.2.2.2.2.2.1 h
  exact ⟨hst.1, hst.2.1, hst.2.2.1, hq.2.1, hq.2.2, hq.1.2.1⟩

/-- Witness for C3 at the concrete connected state, with the timers then
spuriously firing and the broker dropping the link. -/
theorem disconnect_cancels_and_no_reconnect_witness :
    ((∀ x ∈ [Evt.reconnectFire, Evt.mqttDisconnected, Evt.connackFire], x ≠ Evt.connectCall)
      ∧ sampleConnected.shouldBeConnected = true)
  ∧ ((disconnectFromHost sampleConnected).1.shouldBeConnected = false
      ∧ Ev.reconnecting ∉
          (run (disconnectFromHost sampleConnected).1
            [Evt.reconnectFire, Evt.mqttDisconnected, Evt.connackFire]).2) :=
  ⟨⟨by decide, by decide⟩,
   (disconnect_cancels_and_no_reconnect sampleConnected
      [Evt.reconnectFire, Evt.mqttDisconnected, Evt.connackFire] (by decide)).1,
   (disconnect_cancels_and_no_reconnect sampleConnected
      [Evt.reconnectFire, Evt.mqttDisconnected, Evt.connackFire] (by decide)).2.2.2.1⟩

/-- C4: in every reachable state, the controller never reports connected
while intent is cleared: `connected() = true` implies
`shouldBeConnected = true`. -/
theorem connected_implies_intent (s : MState) (h : Reachable s)
    (hc : s.clientState = ClState.Connected) : s.shouldBeConnected = true := by
  cases hb : s.shouldBeConnected
  · have hd := (reachable_invAux s h hb).1
    rw [hc] at hd
    exact absurd hd (by decide)
  · rfl

/-- Witness for C4 at the reachable state produced by a successful
connect run. -/
theorem connected_implies_intent_witness :
    (run initState [Evt.setHost "h", Evt.connectCall, Evt.tcpConnected,
        Evt.mqttConnected]).1.clientState = ClState.Connected
  ∧ (run initState [Evt.setHost "h", Evt.connectCall, Evt.tcpConnected,
        Evt.mqttConnected]).1.shouldBeConnected = true :=
  ⟨by decide,
   connected_implies_intent _
     (reachable_run initState Reachable.init
       [Evt.setHost "h", Evt.connectCall, Evt.tcpConnected, Evt.mqttConnected])
     (by decide)⟩

/-- C5, counterexample: the claim promises, for every new topic value,
exactly one unsubscribe followed by one subscribe when the topic changes
while connected; but changing the topic to the empty string while
connected with a live subscription emits only `topicChanged` — no
unsubscribe and no subscribe are issued, because `updateSubscription`
returns early on an empty topic. -/
theorem setTopic_connected_empty_no_resubscribe :
    sampleConnected.clientState = ClState.Connected
  ∧ sampleConnected.sub = some "a"
  ∧ trimmed "" ≠ sampleConnected.topic
  ∧ setTopic sampleConnected "" = ({ sampleConnected with topic := "" }, [Ev.topicChanged]) := by
  decide

/-- C5, amended: changing the topic while connected results in exactly
one unsubscribe from the old topic followed by exactly one subscribe to
the new topic, provided the new trimmed value is non-empty and a
subscription is currently live; changing the topic while not connected
performs neither and only updates the remembered value; a call whose
trimmed value equals the stored topic is a no-op. -/
theorem setTopic_resubscribe (s : MState) (v : String) :
    (s.clientState = ClState.Connected → s.sub.isSome = true → trimmed v ≠ "" →
      trimmed v ≠ s.topic →
      setTopic s v = ({ s with topic := trimmed v, sub := some (trimmed v) },
                      [Ev.topicChanged, Ev.unsubscribe, Ev.subscribe (trimmed v) 0]))
  ∧ (s.clientState ≠ ClState.Connected → trimmed v ≠ s.topic →
      setTopic s v = ({ s with topic := trimmed v }, [Ev.topicChanged]))
  ∧ (trimmed v = s.topic → setTopic s v = (s, [])) := by
  refine ⟨?_, ?_, ?_⟩
  · intro hc hs hne hd
    rcases Option.isSome_iff_exists.mp hs with ⟨t0, ht⟩
    simp [setTopic, Ne.symm hd, updateSubscription, connected, hc, hne, ht]
  · intro hc hd
    simp [setTopic, Ne.symm hd, updateSubscription, connected, hc]
  · intro hh
    simp [setTopic, hh]

/-- Witness for the amended C5 at the concrete connected state. -/
theorem setTopic_resubscribe_witness :
    (sampleConnected.clientState = ClState.Connected ∧ sampleConnected.sub.isSome = true
      ∧ trimmed "b" ≠ "" ∧ trimmed "b" ≠ sampleConnected.topic)
  ∧ setTopic sampleConnected "b" =
      ({ sampleConnected with topic := "b", sub := some "b" },
       [Ev.topicChanged, Ev.unsubscribe, Ev.subscribe "b" 0]) :=
  ⟨⟨rfl, rfl, by decide, by decide⟩,
   (setTopic_resubscribe sampleConnected "b").1 rfl rfl (by decide) (by decide)⟩

/-- C6: `connectToHost()` with an empty host is rejected eagerly — it
emits exactly one synchronous `connectionError` and returns with the
state completely unchanged: no socket, no timer, no intent change. -/
theorem connectToHost_empty_host (s : MState) (h : s.host = "") :
    connectToHost s = (s, [Ev.connectionError "Host is empty"]) := by
  simp [connectToHost, h]

/-- Witness for C6 at the constructor state (whose host is empty). -/
theorem connectToHost_empty_host_witness :
    initState.host = ""
  ∧ connectToHost initState = (initState, [Ev.connectionError "Host is empty"]) :=
  ⟨rfl, connectToHost_empty_host initState rfl⟩

/-- C7: when the reconnect timer fires, the controller proceeds to a new
connection attempt only if intent is still set and the client is not
already connected; if intent is cleared or the client is connected, the
firing leaves the state unchanged apart from the expired single-shot
timer flag and emits nothing. -/
theorem reconnectFire_guarded (s : MState) (hr : s.reconnectRunning = true) :
    (s.shouldBeConnected = false ∨ s.clientState = ClState.Connected →
      step s Evt.reconnectFire = ({ s with reconnectRunning := false }, []))
  ∧ (s.shouldBeConnected = true → s.clientState ≠ ClState.Connected →
      Ev.reconnecting ∈ (step s Evt.reconnectFire).2) := by
  constructor
  · rintro (h | h) <;> simp [step, hr, attemptReconnect, connected, h]
  · intro h1 h2
    simp [step, hr, attemptReconnect, connected, h1, h2, connectToHost]

/-- Witness for C7 at the concrete armed-but-intent-cleared state. -/
theorem reconnectFire_guarded_witness :
    (sampleIdleArmed.reconnectRunning = true ∧ sampleIdleArmed.shouldBeConnected = false)
  ∧ step sampleIdleArmed Evt.reconnectFire = ({ sampleIdleArmed with reconnectRunning := false }, []) :=
  ⟨⟨rfl, rfl⟩, (reconnectFire_guarded sampleIdleArmed rfl).1 (Or.inl rfl)⟩

/-- C8: every configuration setter is a no-op (no state change, no
notification) when called with a value equal to the stored one, stores
the new value and emits the corresponding change notification when the
value differs, and calling the same setter twice with the same argument
equals calling it once (the second call is a silent no-op). -/
theorem setters_idempotent (s : MState) (v : String) (p i : Int) :
    ((trimmed v = s.host → setHost s v = (s, []))
      ∧ (trimmed v ≠ s.host → (setHost s v).1.host = trimmed v ∧ (setHost s v).2 = [Ev.hostChanged])
      ∧ setHost (setHost s v).1 v = ((setHost s v).1, []))
  ∧ ((p = s.port → setPort s p = (s, []))
      ∧ (p ≠ s.port → (setPort s p).1.port = p ∧ (setPort s p).2 = [Ev.portChanged])
      ∧ setPort (setPort s p).1 p = ((setPort s p).1, []))
  ∧ ((trimmed v = s.username → setUsername s v = (s, []))
      ∧ (trimmed v ≠ s.username → (setUsername s v).1.username = trimmed v ∧ (setUsername s v).2 = [Ev.usernameChanged])
      ∧ setUsername (setUsername s v).1 v = ((setUsername s v).1, []))
  ∧ ((v = s.password → setPassword s v = (s, []))
      ∧ (v ≠ s.password → (setPassword s v).1.password = v ∧ (setPassword s v).2 = [Ev.passwordChanged])
      ∧ setPassword (setPassword s v).1 v = ((setPassword s v).1, []))
  ∧ ((trimmed v = s.topic → setTopic s v = (s, []))
      ∧ (trimmed v ≠ s.topic → (setTopic s v).1.topic = trimmed v ∧ Ev.topicChanged ∈ (setTopic s v).2)
      ∧ setTopic (setTopic s v).1 v = ((setTopic s v).1, []))
  ∧ ((i = s.reconnectInterval → setReconnectInterval s i = (s, []))
      ∧ (i ≠ s.reconnectInterval → (setReconnectInterval s i).1.reconnectInterval = i
          ∧ (setReconnectInterval s i).2 = [Ev.reconnectIntervalChanged])
      ∧ setReconnectInterval (setReconnectInterval s i).1 i = ((setReconnectInterval s i).1, [])) := by
  refine ⟨⟨?_, ?_, ?_⟩, ⟨?_, ?_, ?_⟩, ⟨?_, ?_, ?_⟩, ⟨?_, ?_, ?_⟩, ⟨?_, ?_, ?_⟩, ⟨?_, ?_, ?_⟩⟩
  · intro h; simp [setHost, h]
  · intro h; simp [setHost, Ne.symm h]
  · by_cases hc : s.host = trimmed v <;> simp [setHost, hc]
  · intro h; simp [setPort, h]
  · intro h; simp [setPort, Ne.symm h]
  · by_cases hc : s.port = p <;> simp [setPort, hc]
  · intro h; simp [setUsername, h]
  · intro h; simp [setUsername, Ne.symm h]
  · by_cases hc : s.username = trimmed v <;> simp [setUsername, hc]
  · intro h; simp [setPassword, h]
  · intro h; simp [setPassword, Ne.symm h]
  · by_cases hc : s.password = v <;> simp [setPassword, hc]
  · intro h; simp [setTopic, h]
  · intro h
    constructor
    · simp only [setTopic]; split
      · have hf := (updateSubscription_fields { s with topic := trimmed v }).2.1
        simp_all
      · simp_all
    · simp [setTopic, Ne.symm h]
  · have ht := (updateSubscription_fields { s with topic := trimmed v }).2.1
    by_cases hc : s.topic = trimmed v <;> simp [setTopic, hc, ht]
  · intro h; simp [setReconnectInterval, h]
  · intro h; simp [setReconnectInterval, Ne.symm h]
  · by_cases hc : s.reconnectInterval = i <;> simp [setReconnectInterval, hc]

/-- Witness for C8 at the constructor state: a first `setHost "a"` stores
and notifies, the repeated call is a silent no-op. -/
theorem setters_idempotent_witness :
    (trimmed "a" ≠ initState.host ∧ (setHost initState "a").1.host = trimmed "a")
  ∧ setHost (setHost initState "a").1 "a" = ((setHost initState "a").1, []) :=
  ⟨⟨by decide, ((setters_idempotent initState "a" 1 1).1.2.1 (by decide)).1⟩,
   (setters_idempotent initState "a" 1 1).1.2.2⟩

/-- C9: every subscribe the controller ever issues — under any state and
any occurrence — uses QoS 0; no public operation can cause a subscribe
with QoS 1 or 2. -/
theorem step_subscribe_qos_zero (s : MState) (e : Evt) (t : String) (q : Nat)
    (h : Ev.subscribe t q ∈ (step s e).2) : q = 0 := by
  cases e
  case setHost v => simp only [step, setHost] at h; split at h <;> simp at h
  case setPort p => simp only [step, setPort] at h; split at h <;> simp at h
  case setUsername v => simp only [step, setUsername] at h; split at h <;> simp at h
  case setPassword v => simp only [step, setPassword] at h; split at h <;> simp at h
  case setTopic v =>
    simp only [step, setTopic] at h
    split at h
    · rw [List.mem_cons] at h
      rcases h with h | h
      · exact absurd h (by simp)
      · exact updateSubscription_qos _ t q h
    · simp at h
  case setReconnectInterval i =>
    simp only [step, setReconnectInterval] at h; split at h <;> simp at h
  case connectCall => simp only [step, connectToHost] at h; split at h <;> simp at h
  case disconnectCall =>
    simp only [step] at h
    rcases disconnectFromHost_out s with ho | ho | ho | ho <;> simp [ho] at h
  case tcpConnected =>
    simp only [step, onTcpConnected] at h
    split at h <;> (try split at h) <;> simp at h
  case tcpError m => simp only [step] at h; split at h <;> simp at h
  case mqttConnected =>
    simp only [step, onConnected] at h
    split at h
    · rw [List.mem_cons] at h
      rcases h with h | h
      · exact absurd h (by simp)
      · exact updateSubscription_qos _ t q h
    · simp at h
  case mqttDisconnected =>
    simp only [step, onDisconnected] at h
    split at h
    · simp at h
    · split at h <;> simp at h
  case mqttError e =>
    simp only [step, onErrorChanged] at h
    split at h
    · simp at h
    · split at h <;> simp at h
  case mqttMessage tp pl =>
    simp only [step, onMessageReceived] at h
    split at h <;> simp at h
  case connackFire =>
    simp only [step] at h
    split at h
    · simp only [onConnackTimeout] at h
      split at h <;>
        (simp at h;
         rcases disconnectFromHost_out { s with connackRunning := false } with ho | ho | ho | ho <;>
           simp [ho] at h)
    · simp at h
  case reconnectFire =>
    simp only [step] at h
    split at h
    · simp only [attemptReconnect] at h
      split at h
      · simp at h
      · split at h
        · simp at h
        · simp only [connectToHost] at h
          split at h <;> simp at h
    · simp at h

/-- Witness for C9: the subscribe issued on a successful handshake at the
concrete awaiting state carries QoS 0. -/
theorem step_subscribe_qos_zero_witness :
    Ev.subscribe "t" 0 ∈ (step sampleAwait Evt.mqttConnected).2 ∧ (0 : Nat) = 0 :=
  ⟨by decide, step_subscribe_qos_zero sampleAwait Evt.mqttConnected "t" 0 (by decide)⟩

/-- C10: the host, username and topic setters trim leading and trailing
whitespace before comparing and storing — the stored value always equals
the trimmed input, and a call whose trimmed value equals the stored one
is a no-op — while the password setter stores its argument verbatim. -/
theorem setters_trim (s : MState) (v : String) :
    (setHost s v).1.host = trimmed v
  ∧ (trimmed v = s.host → setHost s v = (s, []))
  ∧ (setUsername s v).1.username = trimmed v
  ∧ (trimmed v = s.username → setUsername s v = (s, []))
  ∧ (setTopic s v).1.topic = trimmed v
  ∧ (trimmed v = s.topic → setTopic s v = (s, []))
  ∧ (setPassword s v).1.password = v := by
  refine ⟨?_, ?_, ?_, ?_, ?_, ?_, ?_⟩
  · simp only [setHost]; split <;> simp_all
  · intro h; simp [setHost, h]
  · simp only [setUsername]; split <;> simp_all
  · intro h; simp [setUsername, h]
  · simp only [setTopic]; split
    · have hf := (updateSubscription_fields { s with topic := trimmed v }).2.1
      simp_all
    · simp_all
  · intro h; simp [setTopic, h]
  · simp only [setPassword]; split <;> simp_all

/-- Witness for C10: whitespace around the host is trimmed, the password
keeps its surrounding whitespace. -/
theorem setters_trim_witness :
    (trimmed "  h " = "h" ∧ (setHost initState "  h ").1.host = "h")
  ∧ (setPassword initState " p ").1.password = " p " := by
  refine ⟨⟨by decide, ?_⟩, (setters_trim initState " p ").2.2.2.2.2.2⟩
  have h := (setters_trim initState "  h ").1
  simpa using h

end MQTTClient
